import Mathlib

/-!
Shallow embedding of the August chat application.

Gateway side: `supabase/functions/openrouter-chat/index.ts` (payload-shape
negotiation against OpenRouter, response construction).

Client side: the Chat component (`handleSend`, `handleFiles`, the title
summary, the multimodal prompt assembly, the progressive reveal loop).

External collaborators (Supabase persistence, the identity provider, the
upstream model provider, file readers and extractors) are modelled as
explicit environments whose fields carry the results those calls produce;
the embedded functions return, next to the new client state, the ordered
list of externally visible effects they issue.
-/

namespace August

/-- JS truthiness of an optional string field: `undefined`, `null` and the
empty string are falsy, every other string is truthy. -/
def strTruthy : Option String → Bool
  | none => false
  | some s => !s.isEmpty

/-- `s.slice(0, n)` of a JS string, modelled on characters.  All strings the
program slices are treated as BMP text, where one UTF-16 code unit is one
character. -/
def jsSlice (s : String) (n : Nat) : String := String.mk (s.data.take n)

/-- Coalesce an optional string with the empty string, as `x ?? ''` does. -/
def optStr : Option String → String
  | none => ""
  | some s => s

/-- Whether the first list is a leading segment of the second. -/
def leadsList : List Char → List Char → Bool
  | [], _ => true
  | _ :: _, [] => false
  | p :: ps, c :: cs => p == c && leadsList ps cs

/-- `s.startsWith(pat)` of JS strings, on characters. -/
def jsStartsWith (s pat : String) : Bool := leadsList pat.data s.data

/-- `s.endsWith(pat)` of JS strings, on characters. -/
def jsEndsWith (s pat : String) : Bool := leadsList pat.data.reverse s.data.reverse

/-- `s.toLowerCase()` of JS strings, on characters. -/
def jsToLower (s : String) : String := String.mk (s.data.map Char.toLower)

/-- `s.trim()` of JS strings: strip leading and trailing whitespace. -/
def jsTrim (s : String) : String :=
  String.mk (((s.data.dropWhile Char.isWhitespace).reverse.dropWhile Char.isWhitespace).reverse)

/-- Drop the first `n` characters of a string. -/
def jsDrop (s : String) (n : Nat) : String := String.mk (s.data.drop n)

/-! Gateway data model (openrouter-chat/index.ts). -/

/-- One request-payload shape tried against the model provider.
`nativeFlag` is the family-specific web-search flag payload, `genericTool`
the generic tool-declaration payload, `noTools` the plain fallback payload
(lines 83, 84/86 and 90 of the gateway). -/
inductive Shape
  | nativeFlag
  | genericTool
  | noTools
deriving DecidableEq

/-- The ordered attempt list built at lines 80-90 of the gateway: when web
is enabled, a `google/` model gets the native flag payload then the generic
tool payload; any other model gets the generic tool payload; a no-tools
fallback always terminates the list. -/
def attemptShapes (model : String) (enableWeb : Bool) : List Shape :=
  (if enableWeb then
    (if jsStartsWith model "google/" then [Shape.nativeFlag, Shape.genericTool]
     else [Shape.genericTool])
   else []) ++ [Shape.noTools]

/-- Result of one upstream fetch: HTTP-level success carrying the eventual
extracted completion text (`data.choices[0].message.content`, absent fields
modelled as `none`), or failure carrying the upstream error body or text. -/
inductive FetchResult
  | ok (content : Option String)
  | fail (detail : String)
deriving DecidableEq

/-- The negotiation loop of lines 92-109: issue the attempts in order, stop
at the first HTTP success, remember each failure's diagnostic detail.
Returns the first success's content (if any), the last failure detail seen,
and the number of fetches issued. -/
def runAttempts : List FetchResult → Option String → Option (Option String) × Option String × Nat
  | [], last => (none, last, 0)
  | FetchResult.ok c :: _, last => (some c, last, 1)
  | FetchResult.fail d :: rest, _ =>
    let r := runAttempts rest (some d)
    (r.1, r.2.1, r.2.2 + 1)

/-- A fragment of an HTTP body, tagged by provenance: literal program text,
the upstream error body or text, the upstream-extracted completion text, or
the server-side provider credential (the OpenRouter API key value). -/
inductive Tok
  | lit (s : String)
  | upstreamDetail (d : String)
  | upstreamContent (c : String)
  | secretKey
deriving DecidableEq

/-- An HTTP response as the gateway builds it: a status and a body given as
an ordered list of provenance-tagged fragments. -/
structure HttpResponse where
  status : Nat
  body : List Tok
deriving DecidableEq

/-- One content unit of a model request: a plain text block, or the list of
image-url parts the client sends as a trailing message. -/
inductive MsgContent
  | str (s : String)
  | imageParts (urls : List String)
deriving DecidableEq

/-- One role-tagged entry of the message list sent to the model. -/
structure LLMMessage where
  role : String
  content : MsgContent
deriving DecidableEq

/-- The parsed gateway request body: `messages` (absent modelled as `[]`),
optional `model`, and `enableWeb` after boolean coercion. -/
structure ReqBody where
  messages : List LLMMessage
  model : Option String
  enableWeb : Bool

/-- A gateway HTTP request: method, optional Authorization header, and the
parsed JSON body (`none` models a body that fails to parse). -/
structure GatewayReq where
  method : String
  authHeader : Option String
  body : Option ReqBody

/-- The gateway's environment: which server secrets are configured, whether
the identity provider validates the caller's token, and the upstream
provider's response to the n-th fetch issued. -/
structure GatewayEnv where
  hasSupabaseUrl : Bool
  hasServiceKey : Bool
  hasOpenRouterKey : Bool
  userValid : Bool
  upstream : Nat → FetchResult

/-- One request the gateway issues upstream: its Authorization header
fragments, the payload shape, the model and the forwarded messages. -/
structure UpstreamRequest where
  authTokens : List Tok
  shape : Shape
  model : String
  messages : List LLMMessage

/-- The default model identifier used when the request names none. -/
def defaultModel : String := "openai/gpt-oss-20b:free"

/-- Models `authHeader.replace('Bearer ', '')` for the well-formed header
shapes the client produces (the pattern occurring as a leading segment);
when the pattern does not occur the header passes through unchanged, as in
the source. -/
def stripBearer (h : String) : String :=
  if jsStartsWith h "Bearer " then jsDrop h 7 else h

/-- A fixed JSON error body, as fragments. -/
def jsonErr (msg : String) : List Tok :=
  [Tok.lit "\x7b\"error\":\"", Tok.lit msg, Tok.lit "\"\x7d"]

/-- The effective model identifier: `body.model || default` (absent or
empty falls back to the default). -/
def requestedModel (b : ReqBody) : String :=
  match b.model with
  | some m => if m.isEmpty then defaultModel else m
  | none => defaultModel

/-- The response the gateway returns after the negotiation loop: the first
success's extracted content as a 200, or a 500 carrying the last attempt's
diagnostic detail (lines 111-124). -/
def negotiationResponse (out : Option (Option String) × Option String × Nat) : HttpResponse :=
  match out.1 with
  | some c =>
    ⟨200, [Tok.lit "\x7b\"content\":", Tok.upstreamContent (optStr c), Tok.lit "\x7d"]⟩
  | none =>
    ⟨500, [Tok.lit "\x7b\"error\":\"OpenRouter error\",\"detail\":"] ++
      (match out.2.1 with
       | some d => [Tok.upstreamDetail d]
       | none => [Tok.lit "null"]) ++ [Tok.lit "\x7d"]⟩

/-- The gateway request handler (the `serve` callback of
openrouter-chat/index.ts), returning the response sent to the caller and
the ordered list of requests issued upstream.  Branches mirror the source:
OPTIONS preflight, missing bearer token, missing server configuration,
invalid token, unparseable JSON, empty message list, then negotiation. -/
def serveModel (req : GatewayReq) (env : GatewayEnv) : HttpResponse × List UpstreamRequest :=
  if req.method == "OPTIONS" then (⟨200, [Tok.lit "ok"]⟩, [])
  else if !strTruthy (req.authHeader.map stripBearer) then
    (⟨401, jsonErr "Missing Authorization header"⟩, [])
  else if !(env.hasSupabaseUrl && env.hasServiceKey && env.hasOpenRouterKey) then
    (⟨500, jsonErr "Missing server configuration"⟩, [])
  else if !env.userValid then
    (⟨401, jsonErr "Unauthorized"⟩, [])
  else
    match req.body with
    | none => (⟨400, jsonErr "Invalid JSON body"⟩, [])
    | some b =>
      let model := requestedModel b
      if b.messages.isEmpty then
        (⟨400, jsonErr "messages must be a non-empty array"⟩, [])
      else
        let shapes := attemptShapes model b.enableWeb
        let results := (List.range shapes.length).map env.upstream
        let out := runAttempts results none
        let issued := (shapes.take out.2.2).map
          (fun sh => UpstreamRequest.mk [Tok.lit "Bearer ", Tok.secretKey] sh model b.messages)
        (negotiationResponse out, issued)

/-! Client data model (the Chat component). -/

/-- A turn-scoped attachment record as `handleFiles` builds it. -/
structure Attachment where
  id : String
  name : String
  type : String
  size : Nat
  dataUrl : Option String
  textContent : Option String
deriving DecidableEq

/-- A persisted chat message row (the fields the embedded logic reads). -/
structure Message where
  id : String
  conversation_id : String
  role : String
  content : String
deriving DecidableEq

/-- A conversation row as cached client-side (the fields the embedded logic
reads: id and nullable title). -/
structure Conversation where
  id : String
  title : Option String
deriving DecidableEq

/-- An externally visible effect issued during one send: remote inserts and
updates, the gateway invocation, and the user-visible failure alert. -/
inductive Effect
  | createConversation
  | insertUser (conversationId content : String) (attachMeta : List (String × String × Nat))
  | insertUserFallback (conversationId content : String)
  | updateTitle (conversationId title : String)
  | invokeGateway (messages : List LLMMessage) (model : String) (enableWeb : Bool)
  | insertAssistant (conversationId content : String)
  | alertFailed
deriving DecidableEq

/-- The client state fields `handleSend` reads and writes (render-closure
values at the time the handler runs). -/
structure ClientState where
  input : String
  pendingQuery : Option String
  attachments : List Attachment
  messages : List Message
  conversations : List Conversation
  activeId : Option String
  selectedModel : String
  enableWeb : Bool
  sending : Bool

/-- Results of the external calls one send performs: conversation creation,
the user-message insert (and its fallback retry), the gateway invocation
(`ok` carries `response?.content`), the assistant insert, and the locally
generated placeholder id. -/
structure SendEnv where
  newConvId : Except Unit String
  userInsertData : Option Message
  fallbackInsertData : Option Message
  gatewayResult : Except Unit (Option String)
  assistantInsertData : Option Message
  tempId : String

/-- The per-tick advance of the typing effect: `Math.max(1, Math.floor(total / 120))`. -/
def stepOf (total : Nat) : Nat := max 1 (total / 120)

/-- The reveal interval loop (handleSend lines 427-442): each tick advances
the revealed length by the step, capped at the total, and stops once the
total is reached.  The extra fuel argument bounds the tick count; it is a
proof device only, shown sufficient at `total + 1` by the step being at
least one character per tick. -/
def revealGoF : Nat → Nat → Nat → Nat → List Nat
  | 0, _, _, _ => []
  | fuel + 1, total, s, i =>
    let j := min total (i + s)
    if total ≤ j then [j] else j :: revealGoF fuel total s j

/-- The sequence of revealed-slice lengths for a response of length `total`. -/
def revealSteps (total : Nat) : List Nat :=
  revealGoF (total + 1) total (stepOf total) 0

/-- Last element of a list of naturals, 0 when empty. -/
def lastIdx : List Nat → Nat
  | [] => 0
  | [n] => n
  | _ :: n :: ns => lastIdx (n :: ns)

/-- The revealed length at which the typing effect stops. -/
def finalRevealLen (total : Nat) : Nat := lastIdx (revealSteps total)

/-- The filename-listing fallback content: `"Attached files: "` followed by
the names joined with `', '`. -/
def attachedFilesLine (atts : List Attachment) : String :=
  "Attached files: " ++ String.intercalate ", " (atts.map (fun a => a.name))

/-- The persisted user-message content (handleSend line 325): the trimmed
text when truthy, else the filename listing when attachments exist, else
empty. -/
def userMessageContentOf (text : String) (atts : List Attachment) : String :=
  if text.isEmpty then (if atts.isEmpty then "" else attachedFilesLine atts) else text

/-- The title candidate summary (handleSend line 367): contents longer than
60 characters are cut to their first 57 characters and an ellipsis. -/
def summarize (s : String) : String :=
  if s.length > 60 then jsSlice s 57 ++ "…" else s

/-- The title truncation as claim C7 words it, for comparison with
`summarize`: the candidate truncated to 60 characters with an ellipsis
marker appended iff it exceeds 60 characters. -/
def summarizeClaim (s : String) : String :=
  if s.length > 60 then jsSlice s 60 ++ "…" else s

/-- Placeholder text when a send has files but no text (line 380). -/
def noTextNote : String := "(no text, files attached)"

/-- The attachment loop of handleSend lines 383-391, threading the combined
text and the collected image urls: extracted text is inlined as a labeled
section truncated to 20000 characters; an image with no extracted text
contributes its data url; anything else is described inline as metadata. -/
def attLoop : List Attachment → String → List String → String × List String
  | [], combined, images => (combined, images)
  | a :: rest, combined, images =>
    if strTruthy a.textContent then
      attLoop rest
        (combined ++ "\n\n--- File: " ++ a.name ++ " ---\n" ++ jsSlice (optStr a.textContent) 20000)
        images
    else if jsStartsWith a.type "image/" && strTruthy a.dataUrl then
      attLoop rest combined (images ++ [optStr a.dataUrl])
    else
      attLoop rest
        (combined ++ "\n\n--- File: " ++ a.name ++ " ---\n[No extractable text found. Type: " ++
          a.type ++ ", " ++ toString a.size ++ " bytes]")
        images

/-- Which attachments contribute a forwarded image payload: exactly those
with no truthy extracted text whose type is an image and whose data url is
present (the second branch of the loop above). -/
def imagePayloadOf (a : Attachment) : Option String :=
  if strTruthy a.textContent then none
  else if jsStartsWith a.type "image/" && strTruthy a.dataUrl then some (optStr a.dataUrl)
  else none

/-- The model request assembly of handleSend lines 374-401: prior messages
mapped unchanged, then either a single user text unit, or the combined text
unit followed (when any images were collected) by one trailing image-parts
unit. -/
def buildLLMMessages (priorMessages : List Message) (userMsgContent : String)
    (atts : List Attachment) : List LLMMessage :=
  let base := priorMessages.map (fun m => LLMMessage.mk m.role (MsgContent.str m.content))
  if atts.isEmpty then
    base ++ [LLMMessage.mk "user" (MsgContent.str userMsgContent)]
  else
    let combined0 := (if userMsgContent.isEmpty then noTextNote else userMsgContent) ++
      "\n\n[Attached files provided as inline text below]"
    let cis := attLoop atts combined0 []
    base ++ [LLMMessage.mk "user" (MsgContent.str cis.1)] ++
      (if cis.2.isEmpty then [] else [LLMMessage.mk "user" (MsgContent.imageParts cis.2)])

/-- The render-closure `activeConversation` value: the cached conversation
matching the active id, if any. -/
def activeConversationOf (st : ClientState) : Option Conversation :=
  match st.activeId with
  | none => none
  | some cid => st.conversations.find? (fun c => c.id == cid)

/-- The guard at handleSend line 319: nothing to send, or a send already in
flight. -/
def sendGuardFails (st : ClientState) : Bool :=
  ((jsTrim (st.pendingQuery.getD st.input)).isEmpty && st.attachments.isEmpty) || st.sending

/-- One send operation (handleSend, lines 317-462) is embedded as two
functions over the identical control flow: `handleSendEffects` computes the
ordered trace of externally visible effects the send issues, and
`handleSendState` computes the post-send client state; `handleSend` pairs
them.  The source's flow, shared by both: nothing happens when the guard
fails; ensure a conversation (throwing on creation failure); insert the
user message, retrying once without attachment metadata when the insert
failed and attachments exist; check-then-set the title against the
render-closure cache; assemble the model request from the render-closure
message list; invoke the gateway (throwing on error); on non-empty
assistant text, run the typing effect against a placeholder, persist the
complete text, and swap in the canonical row.  Thrown errors reach the
catch block, which shows the failure alert; the finally block clears
`sending` and the attachment list. -/
def handleSendEffects (st : ClientState) (env : SendEnv) : List Effect :=
  let text := jsTrim (st.pendingQuery.getD st.input)
  if sendGuardFails st then []
  else
    let ensured : Option (String × List Effect) :=
      match st.activeId with
      | some cid => some (cid, [])
      | none =>
        match env.newConvId with
        | Except.error _ => none
        | Except.ok cid => some (cid, [Effect.createConversation])
    match ensured with
    | none => [Effect.createConversation, Effect.alertFailed]
    | some (conversationId, effs0) =>
      let userMsgContent := userMessageContentOf text st.attachments
      let effs1 := effs0 ++
        [Effect.insertUser conversationId userMsgContent
          (st.attachments.map (fun a => (a.name, a.type, a.size)))]
      let effs2 :=
        match env.userInsertData with
        | some _ => effs1
        | none =>
          if st.attachments.isEmpty then effs1
          else
            effs1 ++ [Effect.insertUserFallback conversationId
              (if userMsgContent.isEmpty then attachedFilesLine st.attachments
               else userMsgContent)]
      let effs3 :=
        if !strTruthy ((activeConversationOf st).bind (fun c => c.title)) then
          effs2 ++ [Effect.updateTitle conversationId (summarize userMsgContent)]
        else effs2
      let effs4 := effs3 ++
        [Effect.invokeGateway (buildLLMMessages st.messages userMsgContent st.attachments)
          st.selectedModel st.enableWeb]
      match env.gatewayResult with
      | Except.error _ => effs4 ++ [Effect.alertFailed]
      | Except.ok contentOpt =>
        if (optStr contentOpt).isEmpty then effs4
        else effs4 ++ [Effect.insertAssistant conversationId (optStr contentOpt)]

/-- The post-send client state; see `handleSendEffects` for the shared
control flow being embedded. -/
def handleSendState (st : ClientState) (env : SendEnv) : ClientState :=
  if sendGuardFails st then st
  else
    let ensured : Option (String × ClientState) :=
      match st.activeId with
      | some cid => some (cid, st)
      | none =>
        match env.newConvId with
        | Except.error _ => none
        | Except.ok cid =>
          some (cid,
            { st with conversations := Conversation.mk cid none :: st.conversations,
                      activeId := some cid })
    match ensured with
    | none => { st with sending := false, attachments := [] }
    | some (conversationId, st1) =>
      let st2 := { st1 with input := "", pendingQuery := none }
      let insertedUser :=
        match env.userInsertData with
        | some m => some m
        | none => if st.attachments.isEmpty then none else env.fallbackInsertData
      let st3 :=
        match insertedUser with
        | some m => { st2 with messages := st2.messages ++ [m] }
        | none => st2
      match env.gatewayResult with
      | Except.error _ => { st3 with sending := false, attachments := [] }
      | Except.ok contentOpt =>
        let assistantText := optStr contentOpt
        if assistantText.isEmpty then { st3 with sending := false, attachments := [] }
        else
          let st4 := { st3 with messages :=
            st3.messages ++ [Message.mk env.tempId conversationId "assistant" ""] }
          let revealed := jsSlice assistantText (finalRevealLen assistantText.length)
          let shown := st4.messages.map (fun m =>
            if m.id == env.tempId then Message.mk m.id m.conversation_id m.role revealed else m)
          let st5 := { st4 with messages := shown }
          match env.assistantInsertData with
          | some fm =>
            let swapped := st5.messages.map (fun m => if m.id == env.tempId then fm else m)
            { st5 with messages := swapped, sending := false, attachments := [] }
          | none => { st5 with sending := false, attachments := [] }

/-- One send operation: the post-send state and the issued effect trace. -/
def handleSend (st : ClientState) (env : SendEnv) : ClientState × List Effect :=
  (handleSendState st env, handleSendEffects st env)

/-! File batch intake (handleFiles, lines 545-589). -/

/-- A selected file, as the handler reads it: name, declared media type
(possibly empty) and byte size. -/
structure FileIn where
  name : String
  type : String
  size : Nat
deriving DecidableEq

/-- Results of the per-file readers and extractors: the inline data url, the
trimmed OCR text, the raw text read, and the PDF and DOCX extractions
(each already reduced to the string the source stores, with extraction
failure modelled as the empty string the source returns). -/
structure ExtractEnv where
  dataUrlOf : FileIn → String
  ocrOf : FileIn → String
  textOf : FileIn → String
  pdfOf : FileIn → String
  docxOf : FileIn → String

/-- A user-visible notice raised during file intake. -/
inductive Notice
  | tooMany
  | oversize (name : String)
deriving DecidableEq

/-- The plain-text media-type test `^(text\/|application\/(json|xml|csv))`,
an anchored alternation of literal leading segments. -/
def isTextualMime (ty : String) : Bool :=
  jsStartsWith ty "text/" || jsStartsWith ty "application/json" ||
  jsStartsWith ty "application/xml" || jsStartsWith ty "application/csv"

/-- The case-insensitive text-extension test `\.(txt|md|json|csv)$`. -/
def hasTextExt (name : String) : Bool :=
  let n := jsToLower name
  jsEndsWith n ".txt" || jsEndsWith n ".md" || jsEndsWith n ".json" || jsEndsWith n ".csv"

/-- The DOCX media type the classifier matches. -/
def docxMime : String :=
  "application/vnd.openxmlformats-officedocument.wordprocessingml.document"

/-- Classification and extraction for one accepted file (lines 559-586):
images read a data url and keep OCR text only when non-empty; textual
types read raw text; PDF and DOCX run their extractors; anything else keeps
an empty text.  The locally generated id's random component is immaterial
to every property below and is omitted from the id string. -/
def processFile (env : ExtractEnv) (f : FileIn) : Attachment :=
  let ty := if f.type.isEmpty then "application/octet-stream" else f.type
  let base : Attachment := Attachment.mk (f.name ++ "-" ++ toString f.size) f.name ty f.size none none
  if jsStartsWith ty "image/" then
    let ocr := env.ocrOf f
    { base with dataUrl := some (env.dataUrlOf f),
                textContent := if ocr.isEmpty then none else some ocr }
  else if isTextualMime ty || hasTextExt f.name then
    { base with textContent := some (env.textOf f) }
  else if ty == "application/pdf" || jsEndsWith (jsToLower f.name) ".pdf" then
    { base with textContent := some (env.pdfOf f) }
  else if ty == docxMime || jsEndsWith (jsToLower f.name) ".docx" then
    { base with textContent := some (env.docxOf f) }
  else
    { base with textContent := some "" }

/-- The per-file size cap: 10 MiB. -/
def maxFileBytes : Nat := 10 * 1024 * 1024

/-- The batch intake (handleFiles): cap acceptance at the room left under
five attachments, notice when the selection exceeds it, then process the
accepted files in order, skipping each oversized file with its own notice.
`Math.max(0, 5 - count)` coincides with truncated subtraction on `Nat`. -/
def handleFiles (env : ExtractEnv) (current : List Attachment) (files : List FileIn) :
    List Attachment × List Notice :=
  let remaining := 5 - current.length
  let accepted := files.take remaining
  let notice0 : List Notice := if files.length > remaining then [Notice.tooMany] else []
  let run := accepted.foldl
    (fun (acc : List Attachment × List Notice) f =>
      if f.size > maxFileBytes then (acc.1, acc.2 ++ [Notice.oversize f.name])
      else (acc.1 ++ [processFile env f], acc.2))
    ([], [])
  (current ++ run.1, notice0 ++ run.2)

/-- The authoritative store's view of one conversation title after an
effect: an `updateTitle` against that conversation overwrites it, every
other effect leaves it unchanged. -/
def applyTitleEffect (convId : String) (dbTitle : Option String) : Effect → Option String
  | Effect.updateTitle cid t => if cid == convId then some t else dbTitle
  | _ => dbTitle

/-- The title after a trace of effects. -/
def applyTitleEffects (convId : String) (dbTitle : Option String) (effs : List Effect) :
    Option String :=
  effs.foldl (applyTitleEffect convId) dbTitle

/-- Substring containment, stated by explicit decomposition. -/
def containsSub (s sub : String) : Prop := ∃ pre post, s = pre ++ sub ++ post

/-! Theorems. -/

/-- The loop stops at the first success: when the first `k` results fail
and the k-th succeeds, the success content is returned and exactly `k + 1`
fetches are issued. -/
theorem runAttempts_first_ok :
    ∀ (results : List FetchResult) (k : Nat) (c last : Option String),
      results.get? k = some (FetchResult.ok c) →
      (∀ j, j < k → ∃ d, results.get? j = some (FetchResult.fail d)) →
      (runAttempts results last).1 = some c ∧ (runAttempts results last).2.2 = k + 1 := by
  intro results
  induction results with
  | nil => intro k c last hk _; simp at hk
  | cons r rest ih =>
    intro k c last hk hfail
    cases k with
    | zero =>
      simp at hk
      subst hk
      simp [runAttempts]
    | succ k' =>
      obtain ⟨d, hd⟩ := hfail 0 (Nat.succ_pos _)
      simp at hd
      subst hd
      have hrec := ih k' c (some d) (by simpa using hk)
        (fun j hj => by simpa using hfail (j + 1) (Nat.succ_lt_succ hj))
      refine ⟨?_, ?_⟩
      · simpa [runAttempts] using hrec.1
      · simpa [runAttempts] using hrec.2

/-- When every attempt fails, the loop returns no success, the last
attempt's detail, and a fetch count equal to the attempt count. -/
theorem runAttempts_all_fail :
    ∀ (results : List FetchResult) (d : String) (last : Option String),
      (∀ r ∈ results, ∃ d', r = FetchResult.fail d') →
      results.getLast? = some (FetchResult.fail d) →
      runAttempts results last = (none, some d, results.length) := by
  intro results
  induction results with
  | nil => intro d last _ hlast; simp at hlast
  | cons r rest ih =>
    intro d last hall hlast
    obtain ⟨d0, hd0⟩ := hall r (List.mem_cons_self _ _)
    subst hd0
    cases rest with
    | nil =>
      simp at hlast
      subst hlast
      simp [runAttempts]
    | cons r2 rest2 =>
      rw [List.getLast?_cons_cons] at hlast
      have hrec := ih d (some d0) (fun x hx => hall x (List.mem_cons_of_mem _ hx)) hlast
      simp [runAttempts, hrec]

/-- C1: with web enabled, a `google/` model attempts exactly the shapes
native flag, generic tool, no tools, in that order; any other model with
web enabled attempts generic tool then no tools; with web disabled only the
no-tools shape is attempted.  Attempts are issued strictly in order: the
first HTTP success's content is returned and no further fetches are issued
after it; when every attempt fails, the single failure carries the last
attempt's diagnostic detail; and the gateway issues exactly the attempted
shapes in order. -/
theorem C1_negotiation_order :
    (∀ model : String, jsStartsWith model "google/" = true →
      attemptShapes model true = [Shape.nativeFlag, Shape.genericTool, Shape.noTools]) ∧
    (∀ model : String, jsStartsWith model "google/" = false →
      attemptShapes model true = [Shape.genericTool, Shape.noTools]) ∧
    (∀ model : String, attemptShapes model false = [Shape.noTools]) ∧
    (∀ (results : List FetchResult) (k : Nat) (c : Option String),
      results.get? k = some (FetchResult.ok c) →
      (∀ j, j < k → ∃ d, results.get? j = some (FetchResult.fail d)) →
      (runAttempts results none).1 = some c ∧ (runAttempts results none).2.2 = k + 1) ∧
    (∀ (results : List FetchResult) (d : String),
      (∀ r ∈ results, ∃ d', r = FetchResult.fail d') →
      results.getLast? = some (FetchResult.fail d) →
      runAttempts results none = (none, some d, results.length)) ∧
    (∀ (req : GatewayReq) (env : GatewayEnv) (b : ReqBody),
      (req.method == "OPTIONS") = false →
      strTruthy (req.authHeader.map stripBearer) = true →
      env.hasSupabaseUrl = true → env.hasServiceKey = true → env.hasOpenRouterKey = true →
      env.userValid = true → req.body = some b → b.messages.isEmpty = false →
      (serveModel req env).2.map (fun u => u.shape) =
        (attemptShapes (requestedModel b) b.enableWeb).take
          ((runAttempts
            ((List.range (attemptShapes (requestedModel b) b.enableWeb).length).map env.upstream)
            none).2.2)) := by
  refine ⟨?_, ?_, ?_, ?_, ?_, ?_⟩
  · intro model h; simp [attemptShapes, h]
  · intro model h; simp [attemptShapes, h]
  · intro model; simp [attemptShapes]
  · intro results k c hk hfail; exact runAttempts_first_ok results k c none hk hfail
  · intro results d hall hlast; exact runAttempts_all_fail results d none hall hlast
  · intro req env b hm ha h1 h2 h3 h4 hb hne
    simp [serveModel, hm, ha, h1, h2, h3, h4, hb, hne, List.map_map, Function.comp_def]

/-- Witness for C1 at concrete inputs: the three orderings at concrete
models, a success at the second of three attempts returning its content
after exactly two fetches, and exhaustion surfacing the last detail. -/
theorem C1_negotiation_order_witness :
    attemptShapes "google/gemini-2.0-flash-exp:free" true =
      [Shape.nativeFlag, Shape.genericTool, Shape.noTools] ∧
    attemptShapes "openai/gpt-oss-20b:free" true = [Shape.genericTool, Shape.noTools] ∧
    attemptShapes "qwen/qwen3-coder:free" false = [Shape.noTools] ∧
    ((runAttempts [FetchResult.fail "d1", FetchResult.ok (some "hi"), FetchResult.fail "x"]
        none).1 = some (some "hi") ∧
     (runAttempts [FetchResult.fail "d1", FetchResult.ok (some "hi"), FetchResult.fail "x"]
        none).2.2 = 2) ∧
    runAttempts [FetchResult.fail "d1", FetchResult.fail "d2"] none = (none, some "d2", 2) := by
  refine ⟨C1_negotiation_order.1 _ (by decide), C1_negotiation_order.2.1 _ (by decide),
    C1_negotiation_order.2.2.1 _, ?_, ?_⟩
  · exact C1_negotiation_order.2.2.2.1
      [FetchResult.fail "d1", FetchResult.ok (some "hi"), FetchResult.fail "x"] 1 (some "hi")
      (by decide)
      (by intro j hj; interval_cases j; exact ⟨"d1", by decide⟩)
  · exact C1_negotiation_order.2.2.2.2.1 [FetchResult.fail "d1", FetchResult.fail "d2"] "d2"
      (by intro r hr; simp at hr; rcases hr with h | h <;> exact ⟨_, h⟩) (by decide)

/-- No provenance-tagged fragment of the negotiated response is the
provider credential, whichever way the loop ended. -/
theorem secretKey_not_in_negotiationResponse
    (out : Option (Option String) × Option String × Nat) :
    Tok.secretKey ∉ (negotiationResponse out).body := by
  rcases out with ⟨r1, r2, n⟩
  cases r1 <;> cases r2 <;> simp [negotiationResponse]

/-- C8: under every code path, the response body the gateway returns to
the caller never contains the upstream provider credential; diagnostic
detail is only upstream-origin or literal text.  Non-vacuity: every request
the gateway does issue upstream carries the credential in its headers. -/
theorem C8_no_secret_leak :
    ∀ (req : GatewayReq) (env : GatewayEnv),
      Tok.secretKey ∉ (serveModel req env).1.body ∧
      ∀ u ∈ (serveModel req env).2, Tok.secretKey ∈ u.authTokens := by
  intro req env
  refine ⟨?_, ?_⟩
  · unfold serveModel
    repeat' split
    all_goals simp [jsonErr, secretKey_not_in_negotiationResponse]
  · intro u hu
    unfold serveModel at hu
    repeat' split at hu
    all_goals first
      | (simp at hu; done)
      | (dsimp only at hu
         simp only [List.mem_map] at hu
         obtain ⟨sh, hsh, hequ⟩ := hu
         rw [← hequ]
         simp)

/-- Witness for C8 at a concrete request and environment: a valid POST
with web enabled whose first upstream attempt fails and second succeeds. -/
theorem C8_no_secret_leak_witness :
    Tok.secretKey ∉
      (serveModel
        ⟨"POST", some "Bearer tok",
         some ⟨[LLMMessage.mk "user" (MsgContent.str "Hello")], some "google/g", true⟩⟩
        ⟨true, true, true, true,
         fun n => if n == 0 then FetchResult.fail "d" else FetchResult.ok (some "Hi")⟩).1.body := by
  exact (C8_no_secret_leak _ _).1

/-- Full behaviour of the reveal loop, by induction on the fuel: from a
revealed length `i` short of the total, the emitted lengths strictly
increase, there are exactly the ceiling of the remainder over the step of
them, and the last one is the total. -/
theorem revealGoF_spec (total s : Nat) (hs : 1 ≤ s) :
    ∀ (fuel i : Nat), i < total → total - i ≤ fuel →
      List.Chain (· < ·) i (revealGoF fuel total s i) ∧
      (revealGoF fuel total s i).length = ((total - i) + s - 1) / s ∧
      ∃ l, revealGoF fuel total s i = l ++ [total] := by
  intro fuel
  induction fuel with
  | zero => intro i h1 h2; omega
  | succ f ih =>
    intro i h1 h2
    by_cases hj : total ≤ min total (i + s)
    · have hjt : min total (i + s) = total := by omega
      have e1 : revealGoF (f + 1) total s i = [total] := by
        simp only [revealGoF]
        rw [if_pos hj, hjt]
      rw [e1]
      refine ⟨List.Chain.cons h1 List.Chain.nil, ?_, ⟨[], rfl⟩⟩
      have h3 : (total - i) + s - 1 = (total - i - 1) + s := by omega
      rw [List.length_singleton, h3, Nat.add_div_right _ (by omega : 0 < s),
        Nat.div_eq_of_lt (by omega)]
    · have hlt : i + s < total := by omega
      have hjt : min total (i + s) = i + s := by omega
      have e2 : revealGoF (f + 1) total s i = (i + s) :: revealGoF f total s (i + s) := by
        simp only [revealGoF]
        rw [hjt, if_neg (by omega)]
      rw [e2]
      obtain ⟨hch, hlen, l, hl⟩ := ih (i + s) (by omega) (by omega)
      refine ⟨List.Chain.cons (by omega) hch, ?_, ⟨(i + s) :: l, by simp [hl]⟩⟩
      have h3 : (total - (i + s)) + s - 1 = total - i - 1 := by omega
      have h4 : (total - i) + s - 1 = (total - i - 1) + s := by omega
      rw [List.length_cons, hlen, h3, h4, Nat.add_div_right _ (by omega : 0 < s)]

/-- The reveal sequence of a non-empty response: strictly increasing from
zero, of length the ceiling of the total over the step, ending at the
total. -/
theorem revealSteps_spec (L : Nat) (hL : 1 ≤ L) :
    List.Chain (· < ·) 0 (revealSteps L) ∧
    (revealSteps L).length = (L + stepOf L - 1) / stepOf L ∧
    ∃ l, revealSteps L = l ++ [L] := by
  have h := revealGoF_spec L (stepOf L) (le_max_left 1 _) (L + 1) 0 (by omega) (by omega)
  simpa [revealSteps] using h

/-- The last entry of a list ending in a singleton. -/
theorem lastIdx_append_singleton : ∀ (l : List Nat) (n : Nat), lastIdx (l ++ [n]) = n := by
  intro l n
  induction l with
  | nil => rfl
  | cons a t ih =>
    cases t with
    | nil => simp [lastIdx]
    | cons b t2 => simpa [lastIdx] using ih

/-- The reveal loop of a non-empty response stops exactly at its length. -/
theorem finalRevealLen_eq (L : Nat) (hL : 1 ≤ L) : finalRevealLen L = L := by
  obtain ⟨-, -, l, hl⟩ := revealSteps_spec L hL
  unfold finalRevealLen
  rw [hl, lastIdx_append_singleton]

/-- Slicing a string at its own length returns it unchanged. -/
theorem jsSlice_full (s : String) : jsSlice s s.length = s := by
  cases s with
  | mk data => simp [jsSlice, String.length]

/-- Every assistant insert a send issues carries the gateway's complete
response string, never a partial reveal, and that string is non-empty. -/
theorem insertAssistant_content (st : ClientState) (env : SendEnv) (cid c : String) :
    Effect.insertAssistant cid c ∈ (handleSend st env).2 →
    env.gatewayResult = Except.ok (some c) ∧ c.isEmpty = false := by
  intro h
  simp only [handleSend] at h
  unfold handleSendEffects at h
  repeat' split at h
  all_goals simp_all [optStr]
  all_goals try (split <;> simp_all)
  all_goals try exact absurd ‹"".isEmpty = false› (by decide)

/-- C6: for every non-empty complete response string of length `L`, the
progressive reveal produces strictly increasing prefix lengths, terminates,
takes exactly the ceiling of `L` over `max 1 (floor (L/120))` steps (hence
is bounded by that ceiling), and its final slice is the full string; and
every assistant content a send persists equals the gateway's original
complete string, never a partially revealed one. -/
theorem C6_progressive_reveal :
    (∀ L : Nat, 1 ≤ L → List.Chain' (· < ·) (revealSteps L)) ∧
    (∀ L : Nat, 1 ≤ L →
      (revealSteps L).length = (L + max 1 (L / 120) - 1) / max 1 (L / 120)) ∧
    (∀ L : Nat, 1 ≤ L → ∃ l, revealSteps L = l ++ [L]) ∧
    (∀ s : String, s.isEmpty = false → jsSlice s (finalRevealLen s.length) = s) ∧
    (∀ (st : ClientState) (env : SendEnv) (cid c : String),
      Effect.insertAssistant cid c ∈ (handleSend st env).2 →
      env.gatewayResult = Except.ok (some c)) := by
  refine ⟨?_, ?_, ?_, ?_, fun st env cid c h => (insertAssistant_content st env cid c h).1⟩
  · intro L hL
    have h := (revealSteps_spec L hL).1
    exact List.Chain'.tail (show List.Chain' (· < ·) (0 :: revealSteps L) from h)
  · intro L hL
    simpa [stepOf] using (revealSteps_spec L hL).2.1
  · intro L hL
    exact (revealSteps_spec L hL).2.2
  · intro s hs
    have hlen : 1 ≤ s.length := by
      cases s with
      | mk data =>
        cases data with
        | nil => exact absurd hs (by decide)
        | cons a t => simp [String.length]
    rw [finalRevealLen_eq s.length hlen, jsSlice_full]

/-- Witness for C6 at concrete inputs: the reveal of a length-5 response,
the final slice of a concrete string, and a send whose gateway response
"Hi" appears as the persisted assistant content. -/
theorem C6_progressive_reveal_witness :
    List.Chain' (· < ·) (revealSteps 5) ∧
    (revealSteps 5).length = (5 + max 1 (5 / 120) - 1) / max 1 (5 / 120) ∧
    (∃ l, revealSteps 5 = l ++ [5]) ∧
    jsSlice "Hello" (finalRevealLen "Hello".length) = "Hello" ∧
    (⟨Except.ok "x", some ⟨"u1", "c1", "user", "Hello"⟩, none, Except.ok (some "Hi"),
      some ⟨"a1", "c1", "assistant", "Hi"⟩, "temp"⟩ : SendEnv).gatewayResult =
      Except.ok (some "Hi") := by
  refine ⟨C6_progressive_reveal.1 5 (by decide), C6_progressive_reveal.2.1 5 (by decide),
    C6_progressive_reveal.2.2.1 5 (by decide),
    C6_progressive_reveal.2.2.2.1 "Hello" (by decide),
    C6_progressive_reveal.2.2.2.2
      ⟨"Hello", none, [], [], [⟨"c1", none⟩], some "c1", "m", false, false⟩
      ⟨Except.ok "x", some ⟨"u1", "c1", "user", "Hello"⟩, none, Except.ok (some "Hi"),
        some ⟨"a1", "c1", "assistant", "Hi"⟩, "temp"⟩
      "c1" "Hi" (by decide)⟩

/-- Every title update a send issues carries the summary of the persisted
user-message content, and it targets the conversation of the send. -/
theorem updateTitle_content (st : ClientState) (env : SendEnv) (cid t : String) :
    Effect.updateTitle cid t ∈ (handleSend st env).2 →
    t = summarize
      (userMessageContentOf (jsTrim (st.pendingQuery.getD st.input)) st.attachments) := by
  intro h
  simp only [handleSend] at h
  unfold handleSendEffects at h
  repeat' split at h
  all_goals simp_all

/-- C4: the persisted user-message content is the trimmed text exactly when
the trimmed text is non-empty and no attachments exist; with attachments
and empty text it is the string `"Attached files: "` followed by the
comma-separated original filenames in attachment order; and every send
inserts the user message with exactly this content. -/
theorem C4_persisted_user_content :
    (∀ inp : String, (jsTrim inp).isEmpty = false →
      userMessageContentOf (jsTrim inp) [] = jsTrim inp) ∧
    (∀ (text : String) (atts : List Attachment), text.isEmpty = true → atts ≠ [] →
      userMessageContentOf text atts =
        "Attached files: " ++ String.intercalate ", " (atts.map (fun a => a.name))) ∧
    (∀ (st : ClientState) (env : SendEnv) (cid : String),
      sendGuardFails st = false → st.activeId = some cid →
      Effect.insertUser cid
        (userMessageContentOf (jsTrim (st.pendingQuery.getD st.input)) st.attachments)
        (st.attachments.map (fun a => (a.name, a.type, a.size))) ∈ (handleSend st env).2) := by
  refine ⟨?_, ?_, ?_⟩
  · intro inp h
    simp [userMessageContentOf, h]
  · intro text atts ht ha
    simp [userMessageContentOf, attachedFilesLine, ht, ha]
  · intro st env cid hguard hactive
    show _ ∈ handleSendEffects st env
    unfold handleSendEffects
    repeat' split
    all_goals simp_all

/-- Witness for C4: a send of text with surrounding whitespace persists the
trimmed text; an attachment-only send persists the filename listing; the
insert effect of a concrete send carries that content. -/
theorem C4_persisted_user_content_witness :
    userMessageContentOf (jsTrim "  Hello  ") [] = jsTrim "  Hello  " ∧
    userMessageContentOf ""
      [⟨"i1", "a.txt", "text/plain", 3, none, some "abc"⟩,
       ⟨"i2", "b.pdf", "application/pdf", 4, none, some ""⟩] =
      "Attached files: " ++ String.intercalate ", " ["a.txt", "b.pdf"] ∧
    Effect.insertUser "c1" "Hello" [] ∈
      (handleSend ⟨"  Hello  ", none, [], [], [⟨"c1", some "T"⟩], some "c1", "m", false, false⟩
        ⟨Except.ok "x", some ⟨"u1", "c1", "user", "Hello"⟩, none, Except.ok (some "Hi"),
         none, "temp"⟩).2 := by
  refine ⟨C4_persisted_user_content.1 "  Hello  " (by decide), ?_, ?_⟩
  · have h := C4_persisted_user_content.2.1 ""
      [⟨"i1", "a.txt", "text/plain", 3, none, some "abc"⟩,
       ⟨"i2", "b.pdf", "application/pdf", 4, none, some ""⟩] (by decide) (by decide)
    simpa using h
  · have h := C4_persisted_user_content.2.2
      ⟨"  Hello  ", none, [], [], [⟨"c1", some "T"⟩], some "c1", "m", false, false⟩
      ⟨Except.ok "x", some ⟨"u1", "c1", "user", "Hello"⟩, none, Except.ok (some "Hi"),
       none, "temp"⟩ "c1" (by decide) rfl
    simpa using h

/-- C10: when the gateway returns an empty content string, no assistant
message arises at all: no assistant insert effect is issued, no placeholder
enters the in-memory list, and the send completes with exactly the user
message appended. -/
theorem C10_empty_response_no_assistant :
    ∀ (st : ClientState) (env : SendEnv) (cid : String) (um : Message),
      sendGuardFails st = false → st.activeId = some cid →
      env.userInsertData = some um → env.gatewayResult = Except.ok (some "") →
      (∀ cid' c, Effect.insertAssistant cid' c ∉ (handleSend st env).2) ∧
      (handleSend st env).1.messages = st.messages ++ [um] := by
  intro st env cid um hguard hactive huser hgw
  constructor
  · intro cid' c hmem
    obtain ⟨h1, h2⟩ := insertAssistant_content st env cid' c hmem
    rw [hgw] at h1
    simp at h1
    rw [← h1] at h2
    exact absurd h2 (by decide)
  · show (handleSendState st env).messages = _
    unfold handleSendState
    simp [hguard, hactive, huser, hgw, optStr, (by decide : "".isEmpty = true)]

/-- Witness for C10: a concrete send whose gateway call returns the empty
string adds only the user message. -/
theorem C10_empty_response_no_assistant_witness :
    (handleSend ⟨"Hello", none, [], [⟨"m0", "c1", "user", "Prior"⟩], [⟨"c1", some "T"⟩],
        some "c1", "m", false, false⟩
      ⟨Except.ok "x", some ⟨"u1", "c1", "user", "Hello"⟩, none, Except.ok (some ""),
       none, "temp"⟩).1.messages =
      [⟨"m0", "c1", "user", "Prior"⟩] ++ [⟨"u1", "c1", "user", "Hello"⟩] := by
  exact (C10_empty_response_no_assistant
    ⟨"Hello", none, [], [⟨"m0", "c1", "user", "Prior"⟩], [⟨"c1", some "T"⟩],
      some "c1", "m", false, false⟩
    ⟨Except.ok "x", some ⟨"u1", "c1", "user", "Hello"⟩, none, Except.ok (some ""),
     none, "temp"⟩
    "c1" ⟨"u1", "c1", "user", "Hello"⟩ (by decide) rfl rfl rfl).2

/-- C2 as stated is false at a concrete send: with the user-message insert
failing (and no attachments), the send issues the gateway call anyway and
shows no failure alert — it neither fails visibly nor stops before the
gateway. -/
theorem C2_user_insert_failure_counterexample :
    Effect.alertFailed ∉
      (handleSend ⟨"Hello", none, [], [], [⟨"c1", some "T"⟩], some "c1", "m", false, false⟩
        ⟨Except.ok "x", none, none, Except.ok (some "Hi"), none, "temp"⟩).2 ∧
    Effect.invokeGateway (buildLLMMessages [] (userMessageContentOf (jsTrim "Hello") []) [])
        "m" false ∈
      (handleSend ⟨"Hello", none, [], [], [⟨"c1", some "T"⟩], some "c1", "m", false, false⟩
        ⟨Except.ok "x", none, none, Except.ok (some "Hi"), none, "temp"⟩).2 := by
  decide

/-- C2 (amended): when the remote insert of the user message fails and the
gateway call itself succeeds, the turn does not fail visibly; with no
attachments the insert is not retried, while with attachments present it is
automatically retried once through the fallback payload without attachment
metadata; and in every case the send proceeds to the gateway call even
though the user message may be unpersisted. -/
theorem C2_user_insert_failure_amended :
    ∀ (st : ClientState) (env : SendEnv) (cid : String) (r : Option String),
      sendGuardFails st = false → st.activeId = some cid →
      env.userInsertData = none → env.gatewayResult = Except.ok r →
      (Effect.invokeGateway
          (buildLLMMessages st.messages
            (userMessageContentOf (jsTrim (st.pendingQuery.getD st.input)) st.attachments)
            st.attachments)
          st.selectedModel st.enableWeb ∈ (handleSend st env).2) ∧
      Effect.alertFailed ∉ (handleSend st env).2 ∧
      (st.attachments = [] →
        ∀ cid' c', Effect.insertUserFallback cid' c' ∉ (handleSend st env).2) ∧
      (st.attachments ≠ [] →
        Effect.insertUserFallback cid
          (if (userMessageContentOf (jsTrim (st.pendingQuery.getD st.input))
                st.attachments).isEmpty
           then attachedFilesLine st.attachments
           else userMessageContentOf (jsTrim (st.pendingQuery.getD st.input)) st.attachments) ∈
          (handleSend st env).2) := by
  intro st env cid r hguard hactive huser hgw
  refine ⟨?_, ?_, ?_, ?_⟩
  · show _ ∈ handleSendEffects st env
    unfold handleSendEffects
    simp only [hguard, hactive, huser, hgw, Bool.false_eq_true, if_false]
    repeat' split
    all_goals simp_all
  · show Effect.alertFailed ∉ handleSendEffects st env
    unfold handleSendEffects
    simp only [hguard, hactive, huser, hgw, Bool.false_eq_true, if_false]
    repeat' split
    all_goals simp_all
  · intro hatts cid' c'
    show _ ∉ handleSendEffects st env
    unfold handleSendEffects
    simp only [hguard, hactive, huser, hgw, hatts, Bool.false_eq_true, if_false]
    repeat' split
    all_goals simp_all
  · intro hatts
    show _ ∈ handleSendEffects st env
    unfold handleSendEffects
    simp only [hguard, hactive, huser, hgw, Bool.false_eq_true, if_false]
    repeat' split
    all_goals simp_all

/-- Witness for the amended C2: a concrete failing-insert send with one
attachment retries through the fallback and still reaches the gateway. -/
theorem C2_user_insert_failure_witness :
    Effect.insertUserFallback "c1"
      (if (userMessageContentOf (jsTrim "")
            [⟨"i1", "a.txt", "text/plain", 3, none, some "abc"⟩]).isEmpty
       then attachedFilesLine [⟨"i1", "a.txt", "text/plain", 3, none, some "abc"⟩]
       else userMessageContentOf (jsTrim "")
         [⟨"i1", "a.txt", "text/plain", 3, none, some "abc"⟩]) ∈
      (handleSend
        ⟨"", none, [⟨"i1", "a.txt", "text/plain", 3, none, some "abc"⟩], [],
         [⟨"c1", some "T"⟩], some "c1", "m", false, false⟩
        ⟨Except.ok "x", none, some ⟨"u1", "c1", "user", "Attached files: a.txt"⟩,
         Except.ok (some "Hi"), none, "temp"⟩).2 := by
  exact (C2_user_insert_failure_amended
    ⟨"", none, [⟨"i1", "a.txt", "text/plain", 3, none, some "abc"⟩], [],
     [⟨"c1", some "T"⟩], some "c1", "m", false, false⟩
    ⟨Except.ok "x", none, some ⟨"u1", "c1", "user", "Attached files: a.txt"⟩,
     Except.ok (some "Hi"), none, "temp"⟩
    "c1" (some "Hi") (by decide) rfl rfl rfl).2.2.2 (by decide)

/-- C3 fails on the code: the title check runs against the render-closure
conversation cache, which is never updated after the title write, and the
update itself is unconditional.  Concretely: a fresh conversation, a first
send of "Hello" (store title becomes "Hello", non-null), then a second send
of "Second message" — the second send issues another title update and the
store title changes to "Second message".  The claim (and the source's own
comment, "Title the conversation on first message") says the non-null title
must remain unchanged. -/
theorem C3_title_overwritten_on_second_send :
    applyTitleEffects "c1" none
        (handleSend ⟨"Hello", none, [], [], [], none, "m", false, false⟩
          ⟨Except.ok "c1", some ⟨"u1", "c1", "user", "Hello"⟩, none, Except.ok (some "Hi"),
           some ⟨"a1", "c1", "assistant", "Hi"⟩, "t1"⟩).2 = some "Hello" ∧
    applyTitleEffects "c1" (some "Hello")
        (handleSend
          { (handleSend ⟨"Hello", none, [], [], [], none, "m", false, false⟩
              ⟨Except.ok "c1", some ⟨"u1", "c1", "user", "Hello"⟩, none, Except.ok (some "Hi"),
               some ⟨"a1", "c1", "assistant", "Hi"⟩, "t1"⟩).1 with input := "Second message" }
          ⟨Except.ok "cX", some ⟨"u2", "c1", "user", "Second message"⟩, none,
           Except.ok (some "Hi2"), some ⟨"a2", "c1", "assistant", "Hi2"⟩, "t2"⟩).2 =
      some "Second message" ∧
    some "Hello" ≠ some "Second message" := by
  decide

/-- The intake loop appends exactly the processed under-limit files to the
attachment accumulator and one oversize notice per oversized file to the
notice accumulator, in selection order. -/
theorem handleFilesLoop (env : ExtractEnv) :
    ∀ (l : List FileIn) (acc1 : List Attachment) (acc2 : List Notice),
      l.foldl
        (fun (acc : List Attachment × List Notice) f =>
          if f.size > maxFileBytes then (acc.1, acc.2 ++ [Notice.oversize f.name])
          else (acc.1 ++ [processFile env f], acc.2))
        (acc1, acc2) =
      (acc1 ++ (l.filter (fun f => decide (f.size ≤ maxFileBytes))).map (processFile env),
       acc2 ++ (l.filter (fun f => decide (maxFileBytes < f.size))).map
         (fun f => Notice.oversize f.name)) := by
  intro l
  induction l with
  | nil => intro acc1 acc2; simp
  | cons f t ih =>
    intro acc1 acc2
    by_cases hf : f.size > maxFileBytes
    · have h1 : decide (f.size ≤ maxFileBytes) = false := by simp [Nat.not_le.mpr hf]
      have h2 : decide (maxFileBytes < f.size) = true := by simp [hf]
      simp only [List.foldl_cons, if_pos hf, List.filter_cons, h1, h2, if_true, if_false,
        Bool.false_eq_true, List.map_cons, ih]
      simp [List.append_assoc]
    · have h1 : decide (f.size ≤ maxFileBytes) = true := by simp [Nat.not_lt.mp hf]
      have h2 : decide (maxFileBytes < f.size) = false := by simp [Nat.not_lt.mp hf]
      simp only [List.foldl_cons, if_neg hf, List.filter_cons, h1, h2, if_true, if_false,
        Bool.false_eq_true, List.map_cons, ih]
      simp [List.append_assoc]

/-- C5 as stated is false at a concrete input: with zero attachments
already present and a single selected file, exactly one file is accepted,
not `max 0 (5 - 0) = 5`. -/
theorem C5_batch_counterexample :
    ((handleFiles ⟨fun _ => "", fun _ => "", fun _ => "t", fun _ => "", fun _ => ""⟩ []
        [⟨"a.txt", "text/plain", 3⟩]).1.length = 1) ∧ 1 ≠ max 0 (5 - 0) := by
  decide

/-- C5 (amended): of the `N` selected files, exactly the earliest
`min N (max 0 (5 - C))` in selection order are accepted, with a notice
raised precisely when the selection exceeds the room left; each accepted
file over 10 MiB is skipped with its own notice while every other accepted
file is still processed, in order. -/
theorem C5_batch_policy_amended :
    ∀ (env : ExtractEnv) (current : List Attachment) (files : List FileIn),
      (handleFiles env current files).1 =
        current ++ ((files.take (5 - current.length)).filter
          (fun f => decide (f.size ≤ maxFileBytes))).map (processFile env) ∧
      (handleFiles env current files).2 =
        (if files.length > 5 - current.length then [Notice.tooMany] else []) ++
          ((files.take (5 - current.length)).filter
            (fun f => decide (maxFileBytes < f.size))).map (fun f => Notice.oversize f.name) ∧
      (files.take (5 - current.length)).length = min files.length (5 - current.length) := by
  intro env current files
  unfold handleFiles
  dsimp only
  rw [handleFilesLoop]
  simp [List.length_take, Nat.min_comm]

/-- C7 as stated is false at a 61-character candidate: the stored title
keeps only the first 57 characters before the ellipsis (58 characters in
all), not the first 60. -/
theorem C7_truncation_counterexample :
    summarize (String.mk (List.replicate 61 'a')) ≠
      summarizeClaim (String.mk (List.replicate 61 'a')) ∧
    summarize (String.mk (List.replicate 61 'a')) =
      String.mk (List.replicate 57 'a') ++ "…" ∧
    (summarize (String.mk (List.replicate 61 'a'))).length = 58 := by
  decide

/-- C7 (amended): candidates of length at most 60 are stored unchanged;
candidates longer than 60 are truncated to their first 57 characters with
an ellipsis appended, a 58-character result; and every title a send sets is
this summary of the persisted user-message content. -/
theorem C7_title_truncation_amended :
    (∀ s : String, s.length ≤ 60 → summarize s = s) ∧
    (∀ s : String, 60 < s.length →
      summarize s = jsSlice s 57 ++ "…" ∧ (summarize s).length = 58) ∧
    (∀ (st : ClientState) (env : SendEnv) (cid t : String),
      Effect.updateTitle cid t ∈ (handleSend st env).2 →
      t = summarize
        (userMessageContentOf (jsTrim (st.pendingQuery.getD st.input)) st.attachments)) := by
  refine ⟨?_, ?_, updateTitle_content⟩
  · intro s h
    simp [summarize, Nat.not_lt.mpr h]
  · intro s h
    have hlen : s.length = s.data.length := rfl
    refine ⟨by simp [summarize, h], ?_⟩
    rw [show summarize s = jsSlice s 57 ++ "…" from by simp [summarize, h]]
    rw [String.length_append]
    have h57 : (jsSlice s 57).length = 57 := by
      show (String.mk (s.data.take 57)).length = 57
      have : (String.mk (s.data.take 57)).length = (s.data.take 57).length := rfl
      rw [this, List.length_take]
      omega
    rw [h57]
    decide

/-- Witness for the amended C7: a short candidate unchanged, the 61-'a'
candidate truncated at 57, and a concrete first send setting the title to
the summarized content "Hello". -/
theorem C7_title_truncation_witness :
    summarize "Hi" = "Hi" ∧
    summarize (String.mk (List.replicate 61 'a')) =
      jsSlice (String.mk (List.replicate 61 'a')) 57 ++ "…" ∧
    "Hello" = summarize (userMessageContentOf (jsTrim "Hello") []) := by
  refine ⟨C7_title_truncation_amended.1 "Hi" (by decide),
    (C7_title_truncation_amended.2.1 (String.mk (List.replicate 61 'a')) (by decide)).1,
    ?_⟩
  have h := C7_title_truncation_amended.2.2
    ⟨"Hello", none, [], [], [], none, "m", false, false⟩
    ⟨Except.ok "c1", some ⟨"u1", "c1", "user", "Hello"⟩, none, Except.ok (some "Hi"),
     none, "t1"⟩ "c1" "Hello" (by decide)
  simpa using h

/-- The image urls the attachment loop collects are exactly the payloads of
the attachments with an image payload and no truthy extracted text, in
order. -/
theorem attLoop_images (atts : List Attachment) :
    ∀ (c0 : String) (imgs0 : List String),
      (attLoop atts c0 imgs0).2 = imgs0 ++ atts.filterMap imagePayloadOf := by
  induction atts with
  | nil => intro c0 imgs0; simp [attLoop]
  | cons a t ih =>
    intro c0 imgs0
    cases h1 : strTruthy a.textContent with
    | true => simp [attLoop, h1, imagePayloadOf, ih]
    | false =>
      cases h2 : jsStartsWith a.type "image/" && strTruthy a.dataUrl with
      | true => simp [attLoop, h1, h2, imagePayloadOf, ih, List.append_assoc]
      | false => simp [attLoop, h1, h2, imagePayloadOf, ih]

/-- The attachment loop only appends to the right of the combined text. -/
theorem attLoop_extends (atts : List Attachment) :
    ∀ (c0 : String) (imgs0 : List String), ∃ suf, (attLoop atts c0 imgs0).1 = c0 ++ suf := by
  induction atts with
  | nil =>
    intro c0 imgs0
    exact ⟨"", by simp [attLoop]⟩
  | cons a t ih =>
    intro c0 imgs0
    cases h1 : strTruthy a.textContent with
    | true =>
      obtain ⟨suf, hsuf⟩ := ih
        (c0 ++ "\n\n--- File: " ++ a.name ++ " ---\n" ++ jsSlice (optStr a.textContent) 20000)
        imgs0
      refine ⟨"\n\n--- File: " ++ a.name ++ " ---\n" ++
        jsSlice (optStr a.textContent) 20000 ++ suf, ?_⟩
      rw [show attLoop (a :: t) c0 imgs0 =
        attLoop t (c0 ++ "\n\n--- File: " ++ a.name ++ " ---\n" ++
          jsSlice (optStr a.textContent) 20000) imgs0 from by simp [attLoop, h1]]
      rw [hsuf]
      simp [String.append_assoc]
    | false =>
      cases h2 : jsStartsWith a.type "image/" && strTruthy a.dataUrl with
      | true =>
        obtain ⟨suf, hsuf⟩ := ih c0 (imgs0 ++ [optStr a.dataUrl])
        refine ⟨suf, ?_⟩
        rw [show attLoop (a :: t) c0 imgs0 =
          attLoop t c0 (imgs0 ++ [optStr a.dataUrl]) from by simp [attLoop, h1, h2]]
        exact hsuf
      | false =>
        obtain ⟨suf, hsuf⟩ := ih
          (c0 ++ "\n\n--- File: " ++ a.name ++ " ---\n[No extractable text found. Type: " ++
            a.type ++ ", " ++ toString a.size ++ " bytes]") imgs0
        refine ⟨"\n\n--- File: " ++ a.name ++ " ---\n[No extractable text found. Type: " ++
          a.type ++ ", " ++ toString a.size ++ " bytes]" ++ suf, ?_⟩
        rw [show attLoop (a :: t) c0 imgs0 =
          attLoop t (c0 ++ "\n\n--- File: " ++ a.name ++
            " ---\n[No extractable text found. Type: " ++ a.type ++ ", " ++
            toString a.size ++ " bytes]") imgs0 from by simp [attLoop, h1, h2]]
        rw [hsuf]
        simp [String.append_assoc]

/-- Two strings with the same character data are equal. -/
theorem stringDataEq (x y : String) (h : x.data = y.data) : x = y := by
  cases x
  cases y
  exact congrArg String.mk h

/-- A substring of the accumulator stays a substring of the loop result. -/
theorem containsSub_attLoop (atts : List Attachment) (c0 : String) (imgs0 : List String)
    (sub : String) (h : containsSub c0 sub) :
    containsSub (attLoop atts c0 imgs0).1 sub := by
  obtain ⟨pre, post, hps⟩ := h
  obtain ⟨suf, hsuf⟩ := attLoop_extends atts c0 imgs0
  exact ⟨pre, post ++ suf, by rw [hsuf, hps]; simp [String.append_assoc]⟩

/-- Every attachment with truthy extracted text contributes its labeled
section to the combined text. -/
theorem attLoop_section (atts : List Attachment) :
    ∀ (c0 : String) (imgs0 : List String) (a : Attachment),
      a ∈ atts → strTruthy a.textContent = true →
      containsSub (attLoop atts c0 imgs0).1 ("--- File: " ++ a.name ++ " ---") := by
  induction atts with
  | nil => intro c0 imgs0 a ha _; simp at ha
  | cons b t ih =>
    intro c0 imgs0 a ha htr
    rcases List.mem_cons.mp ha with rfl | hmem
    · rw [show attLoop (a :: t) c0 imgs0 =
        attLoop t (c0 ++ "\n\n--- File: " ++ a.name ++ " ---\n" ++
          jsSlice (optStr a.textContent) 20000) imgs0 from by simp [attLoop, htr]]
      apply containsSub_attLoop
      refine ⟨c0 ++ "\n\n", "\n" ++ jsSlice (optStr a.textContent) 20000, ?_⟩
      apply stringDataEq
      simp [String.data_append, List.append_assoc]
    · cases h1 : strTruthy b.textContent with
      | true =>
        rw [show attLoop (b :: t) c0 imgs0 =
          attLoop t (c0 ++ "\n\n--- File: " ++ b.name ++ " ---\n" ++
            jsSlice (optStr b.textContent) 20000) imgs0 from by simp [attLoop, h1]]
        exact ih _ imgs0 a hmem htr
      | false =>
        cases h2 : jsStartsWith b.type "image/" && strTruthy b.dataUrl with
        | true =>
          rw [show attLoop (b :: t) c0 imgs0 =
            attLoop t c0 (imgs0 ++ [optStr b.dataUrl]) from by simp [attLoop, h1, h2]]
          exact ih c0 _ a hmem htr
        | false =>
          rw [show attLoop (b :: t) c0 imgs0 =
            attLoop t (c0 ++ "\n\n--- File: " ++ b.name ++
              " ---\n[No extractable text found. Type: " ++ b.type ++ ", " ++
              toString b.size ++ " bytes]") imgs0 from by simp [attLoop, h1, h2]]
          exact ih _ imgs0 a hmem htr

/-- C9: an attachment reaches the model as image data exactly when it has
an image payload and no truthy extracted text (so an image whose optical
recognition found text is never forwarded as an image); an attachment with
truthy extracted text is inlined into the combined text unit under its
labeled section; and with attachments present the model request is the
prior messages, the combined text unit, then one trailing image-parts unit
exactly when any image payloads were collected. -/
theorem C9_attachment_units :
    (∀ (atts : List Attachment) (c0 : String),
      (attLoop atts c0 []).2 = atts.filterMap imagePayloadOf) ∧
    (∀ (atts : List Attachment) (c0 : String) (a : Attachment),
      a ∈ atts → strTruthy a.textContent = true →
      containsSub (attLoop atts c0 []).1 ("--- File: " ++ a.name ++ " ---")) ∧
    (∀ (prior : List Message) (u : String) (atts : List Attachment),
      atts.isEmpty = false →
      buildLLMMessages prior u atts =
        prior.map (fun m => LLMMessage.mk m.role (MsgContent.str m.content)) ++
        [LLMMessage.mk "user" (MsgContent.str
          (attLoop atts ((if u.isEmpty then noTextNote else u) ++
            "\n\n[Attached files provided as inline text below]") []).1)] ++
        (if (atts.filterMap imagePayloadOf).isEmpty then []
         else [LLMMessage.mk "user"
           (MsgContent.imageParts (atts.filterMap imagePayloadOf))])) := by
  refine ⟨?_, ?_, ?_⟩
  · intro atts c0
    simpa using attLoop_images atts c0 []
  · intro atts c0 a ha htr
    exact attLoop_section atts c0 [] a ha htr
  · intro prior u atts hne
    unfold buildLLMMessages
    rw [hne]
    simp [attLoop_images atts _ []]

/-- Witness for C9: of two image attachments, the one whose optical text
recognition found text is inlined under its label and not forwarded, while
the text-free one is forwarded as the only image payload. -/
theorem C9_attachment_units_witness :
    (attLoop [⟨"i1", "photo.png", "image/png", 4, some "url1", some "OCRTEXT"⟩,
        ⟨"i2", "pic.png", "image/png", 5, some "url2", none⟩] "X" []).2 = ["url2"] ∧
    containsSub
      (attLoop [⟨"i1", "photo.png", "image/png", 4, some "url1", some "OCRTEXT"⟩,
        ⟨"i2", "pic.png", "image/png", 5, some "url2", none⟩] "X" []).1
      ("--- File: " ++ "photo.png" ++ " ---") ∧
    buildLLMMessages [] ""
        [⟨"i1", "photo.png", "image/png", 4, some "url1", some "OCRTEXT"⟩,
         ⟨"i2", "pic.png", "image/png", 5, some "url2", none⟩] =
      [LLMMessage.mk "user" (MsgContent.str
        (attLoop [⟨"i1", "photo.png", "image/png", 4, some "url1", some "OCRTEXT"⟩,
          ⟨"i2", "pic.png", "image/png", 5, some "url2", none⟩]
          ((if ("" : String).isEmpty then noTextNote else "") ++
            "\n\n[Attached files provided as inline text below]") []).1)] ++
      [LLMMessage.mk "user" (MsgContent.imageParts ["url2"])] := by
  refine ⟨?_, ?_, ?_⟩
  · exact (C9_attachment_units.1
      [⟨"i1", "photo.png", "image/png", 4, some "url1", some "OCRTEXT"⟩,
       ⟨"i2", "pic.png", "image/png", 5, some "url2", none⟩] "X").trans (by decide)
  · exact C9_attachment_units.2.1
      [⟨"i1", "photo.png", "image/png", 4, some "url1", some "OCRTEXT"⟩,
       ⟨"i2", "pic.png", "image/png", 5, some "url2", none⟩] "X"
      ⟨"i1", "photo.png", "image/png", 4, some "url1", some "OCRTEXT"⟩
      (by decide) (by decide)
  · have h := C9_attachment_units.2.2 [] ""
      [⟨"i1", "photo.png", "image/png", 4, some "url1", some "OCRTEXT"⟩,
       ⟨"i2", "pic.png", "image/png", 5, some "url2", none⟩] (by decide)
    rw [h]
    simp
    decide

end August
